import Mathlib

/-!
Verification of the ship-bot repository (src/bot.py): a shallow embedding of
the carrier-selection and shipment-creation workflow, and theorems checking
the natural-language specification against it.

Conventions of the embedding:
* Python `None` is `Option.none`; Python truthiness of strings (`""` falsy),
  dicts and integers (`0` falsy) is made explicit at every use site, exactly
  where the source tests truthiness.
* Machine floats carrying courier rates are modelled as rationals (the source
  only compares and returns them; the rate values in all claims are small
  decimal numbers, where float and rational comparison agree).
* Wall-clock times (`time.time()`, parsed `datetime`s) are seconds as `Int`.
* External I/O (the Shiprocket HTTP API, the AWB-assignment outcome per
  courier) is a parameter of each function: the embedding takes the response
  environment as an argument and returns, besides the source function's
  return value, the observable effect trace the claims talk about.
-/

namespace ShipBot

/-! ### String helpers (Python `str` operations used by bot.py) -/

/-- Python substring containment `a in b` on lists of characters. -/
def infixB (needle : List Char) : List Char → Bool
  | [] => needle.isPrefixOf []
  | c :: rest => needle.isPrefixOf (c :: rest) || infixB needle rest

/-- Python `a in b` for strings. -/
def substrB (a b : String) : Bool := infixB a.toList b.toList

/-- Python `str.lower()`, character by character. -/
def strLower (s : String) : String := (s.toList.map Char.toLower).asString

/-- Python `str.strip()`: drop whitespace from both ends. -/
def strTrim (s : String) : String :=
  (((s.toList.dropWhile Char.isWhitespace).reverse.dropWhile
      Char.isWhitespace).reverse).asString

/-- A word character in the sense of the regex `\W` used by
`normalize_pickup_obj` (ASCII reading): letters, digits, underscore. -/
def isWordChar (c : Char) : Bool := c.isAlphanum || c = '_'

/-- `re.sub(r"\W", "", s.lower())`: lowercase, then drop non-word chars. -/
def normWord (s : String) : String :=
  ((strLower s).toList.filter isWordChar).asString

/-- Python `str.title()` (ASCII reading): a letter is uppercased when the
previous character is not a letter, lowercased otherwise. -/
def titleAux : List Char → Bool → List Char
  | [], _ => []
  | c :: cs, prevAlpha =>
    (if c.isAlpha then (if prevAlpha then c.toLower else c.toUpper) else c)
      :: titleAux cs c.isAlpha

/-- Python `str.title()`. -/
def pyTitle (s : String) : String := (titleAux s.toList false).asString

/-- Python `a or b` for optional strings: `a` unless it is falsy
(`None` or `""`). -/
def pyOrS (a b : Option String) : Option String :=
  match a with
  | some s => if s = "" then b else some s
  | none => b

/-- Python truthiness filter for an optional string: `some s` only when `s`
is non-empty. -/
def truthyStr : Option String → Option String
  | some s => if s = "" then none else some s
  | none => none

/-- Python `a or b` for optional integers: `a` unless falsy (`None` or `0`). -/
def pyOrN (a b : Option Nat) : Option Nat :=
  match a with
  | some n => if n = 0 then b else some n
  | none => b

/-! ### Courier candidates (`get_available_couriers` records, bot.py) -/

/-- One record of the courier-serviceability response consumed by
`create_shipment_with_fallback`; each field mirrors a `c.get(...)` access of
the source (absent key = `none`). -/
structure Courier where
  courier_name : Option String := none
  mode : Option String := none
  service_type : Option String := none
  rate : Option ℚ := none
  courier_company_id : Option Nat := none
  courier_id : Option Nat := none
  courierId : Option Nat := none
  id : Option Nat := none
deriving DecidableEq, Repr

/-- `mode_pref` (bot.py, inside `create_shipment_with_fallback`):
`m = str(c.get("mode") or c.get("service_type") or "").lower()`;
0 if `"surface" in m`, 1 if `"air" in m`, else 2. -/
def mode_pref (c : Courier) : Nat :=
  let m := strLower ((pyOrS c.mode c.service_type).getD "")
  if substrB "surface" m then 0
  else if substrB "air" m then 1
  else 2

/-- The optional `courier_priority.json` table: each key maps to `some n`
when the JSON value is the integer `n`, to `none` when it is a value of any
other type (the source checks `isinstance(val, int)`). -/
abbrev PTable := List (String × Option Int)

/-- The override-table key `f"{name}{(' ' + mode.title()) if mode else ''}"`
built from `str(c.get("courier_name") or "").strip()` and
`str(c.get("mode") or c.get("service_type") or "").strip()`. -/
def overrideKey (c : Courier) : String :=
  let name := strTrim (c.courier_name.getD "")
  let mode := strTrim ((pyOrS c.mode c.service_type).getD "")
  if mode = "" then name else name ++ " " ++ pyTitle mode

/-- `c.get("rate", 1e12)`. -/
def rateD (c : Courier) : ℚ := c.rate.getD (10 ^ 12)

/-- The fixed-tier fallback of `priority_key`: 1 for names containing
"bluedart", 2 for "delhivery", 3 for "dtdc", 99 otherwise, on
`str(c.get("courier_name") or "").lower()`. -/
def fallbackBase (c : Courier) : Int :=
  let nl := strLower (c.courier_name.getD "")
  if substrB "bluedart" nl then 1
  else if substrB "delhivery" nl then 2
  else if substrB "dtdc" nl then 3
  else 99

/-- The sort key produced by `priority_key` in the source: (tier,
service-mode preference, rate with missing-rate sentinel). -/
abbrev SortKey := Int × Nat × ℚ

/-- `priority_key` (bot.py): use the override table when `priority_json` is
truthy (present and non-empty) and maps the candidate's key to an integer;
otherwise the fixed name-based tier. -/
def priority_key (pj : Option PTable) (c : Courier) : SortKey :=
  match pj with
  | some t =>
    if t.isEmpty then (fallbackBase c, mode_pref c, rateD c)
    else
      match t.lookup (overrideKey c) with
      | some (some v) => (v, mode_pref c, rateD c)
      | _ => (fallbackBase c, mode_pref c, rateD c)
  | none => (fallbackBase c, mode_pref c, rateD c)

/-- Lexicographic comparison of sort keys, as Python compares the tuples
returned by `priority_key`. -/
def keyLEp (x y : SortKey) : Prop :=
  x.1 < y.1 ∨ (x.1 = y.1 ∧ (x.2.1 < y.2.1 ∨ (x.2.1 = y.2.1 ∧ x.2.2 ≤ y.2.2)))

instance : DecidableRel keyLEp := fun x y => by
  unfold keyLEp; infer_instance

/-- The candidate ordering used by `sorted(couriers, key=priority_key)`. -/
def keyRel (pj : Option PTable) (a b : Courier) : Prop :=
  keyLEp (priority_key pj a) (priority_key pj b)

instance (pj : Option PTable) : DecidableRel (keyRel pj) := fun a b => by
  unfold keyRel; infer_instance

theorem keyLEp_total (x y : SortKey) : keyLEp x y ∨ keyLEp y x := by
  rcases x with ⟨x1, x2, x3⟩
  rcases y with ⟨y1, y2, y3⟩
  simp only [keyLEp]
  rcases lt_trichotomy x1 y1 with h | h | h
  · exact Or.inl (Or.inl h)
  · subst h
    rcases lt_trichotomy x2 y2 with h2 | h2 | h2
    · exact Or.inl (Or.inr ⟨rfl, Or.inl h2⟩)
    · subst h2
      rcases le_total x3 y3 with h3 | h3
      · exact Or.inl (Or.inr ⟨rfl, Or.inr ⟨rfl, h3⟩⟩)
      · exact Or.inr (Or.inr ⟨rfl, Or.inr ⟨rfl, h3⟩⟩)
    · exact Or.inr (Or.inr ⟨rfl, Or.inl h2⟩)
  · exact Or.inr (Or.inl h)

theorem keyLEp_trans {x y z : SortKey} (h1 : keyLEp x y) (h2 : keyLEp y z) :
    keyLEp x z := by
  rcases x with ⟨x1, x2, x3⟩
  rcases y with ⟨y1, y2, y3⟩
  rcases z with ⟨z1, z2, z3⟩
  simp only [keyLEp] at *
  rcases h1 with h1 | ⟨e1, h1⟩
  · rcases h2 with h2 | ⟨e2, _⟩
    · exact Or.inl (lt_trans h1 h2)
    · exact Or.inl (e2 ▸ h1)
  · subst e1
    rcases h2 with h2 | ⟨e2, h2⟩
    · exact Or.inl h2
    · subst e2
      rcases h1 with h1 | ⟨e1, h1⟩
      · rcases h2 with h2 | ⟨e2, _⟩
        · exact Or.inr ⟨rfl, Or.inl (lt_trans h1 h2)⟩
        · exact Or.inr ⟨rfl, Or.inl (e2 ▸ h1)⟩
      · subst e1
        rcases h2 with h2 | ⟨e2, h2⟩
        · exact Or.inr ⟨rfl, Or.inl h2⟩
        · exact Or.inr ⟨rfl, Or.inr ⟨e2, le_trans h1 h2⟩⟩

theorem keyLEp_antisymm {x y : SortKey} (h1 : keyLEp x y) (h2 : keyLEp y x) :
    x = y := by
  rcases x with ⟨x1, x2, x3⟩
  rcases y with ⟨y1, y2, y3⟩
  simp only [keyLEp] at *
  rcases h1 with h1 | ⟨e1, h1⟩
  · rcases h2 with h2 | ⟨e2, _⟩
    · exact absurd h2 (not_lt_of_gt h1)
    · exact absurd h1 (e2 ▸ lt_irrefl y1)
  · subst e1
    rcases h2 with h2 | ⟨_, h2⟩
    · exact absurd h2 (lt_irrefl x1)
    · rcases h1 with h1 | ⟨e1, h1⟩
      · rcases h2 with h2 | ⟨e2, _⟩
        · exact absurd h2 (not_lt_of_gt h1)
        · exact absurd h1 (e2 ▸ lt_irrefl y2)
      · subst e1
        rcases h2 with h2 | ⟨_, h2⟩
        · exact absurd h2 (lt_irrefl x2)
        · exact Prod.ext rfl (Prod.ext rfl (le_antisymm h1 h2))

instance (pj : Option PTable) : IsTotal Courier (keyRel pj) :=
  ⟨fun a b => keyLEp_total (priority_key pj a) (priority_key pj b)⟩

instance (pj : Option PTable) : IsTrans Courier (keyRel pj) :=
  ⟨fun _ _ _ => keyLEp_trans⟩

/-- `couriers_sorted = sorted(couriers, key=lambda c: priority_key(c))`.
Python's `sorted` is a stable sort by the key; insertion sort over the total
preorder `keyRel` is stable, hence produces the identical list. -/
def couriers_sorted (pj : Option PTable) (cs : List Courier) : List Courier :=
  cs.insertionSort (keyRel pj)

/-- The courier identifier chain
`courier.get("courier_company_id") or courier.get("courier_id") or
courier.get("courierId") or courier.get("id")`. -/
def resolvedId (c : Courier) : Option Nat :=
  pyOrN c.courier_company_id (pyOrN c.courier_id (pyOrN c.courierId c.id))

/-- The identifier actually used: `none` exactly when the source hits
`if not courier_id: continue` (chain yields `None` or `0`). -/
def usableId (c : Courier) : Option Nat :=
  match resolvedId c with
  | some n => if n = 0 then none else some n
  | none => none

/-- The fallback loop of `create_shipment_with_fallback`: walk the sorted
candidates, skip those with no usable identifier, call `assign_awb`
(modelled by `assign : courier_id → returned awb`, `none` covering both a
`None` return and a raised exception), and stop at the first truthy AWB.
Besides the source's return value it returns the list of courier ids for
which an `assign_awb` call was attempted, in order. -/
def fallbackLoop (assign : Nat → Option String) :
    List Courier → Option (Courier × String × Option ℚ) × List Nat
  | [] => (none, [])
  | c :: rest =>
    match usableId c with
    | none => fallbackLoop assign rest
    | some cid =>
      match truthyStr (assign cid) with
      | some awb => (some (c, awb, c.rate), [cid])
      | none =>
        let r := fallbackLoop assign rest
        (r.1, cid :: r.2)

/-- `create_shipment_with_fallback` (bot.py): the courier list returned by
`get_available_couriers` and the per-courier `assign_awb` outcome are
environment parameters; result is the source's `(courier, awb, rate)`
triple (`none` = `(None, None, None)`) plus the attempted-assignment trace. -/
def create_shipment_with_fallback (pj : Option PTable)
    (assign : Nat → Option String) (couriers : List Courier) :
    Option (Courier × String × Option ℚ) × List Nat :=
  if couriers.isEmpty then (none, [])
  else fallbackLoop assign (couriers_sorted pj couriers)

/-! ### Pickup resolver (`normalize_pickup_obj`, bot.py) -/

/-- The per-key matching disjunction of the resolver loop:
`k == norm_key or k in norm_key or norm_key in k` (normalized user label
`k` against normalized key `nk`). -/
def anyRule (k nk : String) : Bool :=
  (k = nk) || substrB k nk || substrB nk k

/-- The `for key, obj in pickup_map.items(): ... return obj` loop of
`normalize_pickup_obj`; `pm` is the pickup map as its insertion-ordered
entry list. -/
def pickupLoop {α : Type} (k : String) : List (String × α) → Option α
  | [] => none
  | e :: rest =>
    if anyRule k (normWord e.1) then some e.2 else pickupLoop k rest

/-- `normalize_pickup_obj` (bot.py): when `parsed.get("pickup")` is truthy,
run the matching loop on the normalized label; otherwise, or when no entry
matches, `return next(iter(pickup_map.values()), None)`. -/
def normalize_pickup_obj {α : Type} (pickup : Option String)
    (pm : List (String × α)) : Option α :=
  match truthyStr pickup with
  | some p =>
    match pickupLoop (normWord p) pm with
    | some obj => some obj
    | none => (pm.head?).map (fun e => e.2)
  | none => (pm.head?).map (fun e => e.2)

/-! ### Token manager (`get_token`, bot.py) -/

/-- The module-global token state (`auth_token`, `token_expiry`). The
initial state is `⟨none, 0⟩`. -/
structure TokState where
  auth_token : Option String
  token_expiry : Int
deriving DecidableEq, Repr

/-- Outcome of `get_token`: the returned token, or the raised
"Shiprocket login failed" exception. -/
inductive TokResult
  | ok (tok : String)
  | err
deriving DecidableEq, Repr

/-- The login branch of `get_token`: one POST to `/auth/login`. `login` is
the environment's answer: `some tok` when the response body has a `token`
field, `none` covering both a request exception and a body without a
`token` field (the source raises in either case, leaving the cached state
unchanged). The `Nat` counts login calls made. -/
def attemptLogin (now : Int) (login : Option String) (s : TokState) :
    TokResult × TokState × Nat :=
  match login with
  | some tok => (.ok tok, ⟨some tok, now + 23 * 3600⟩, 1)
  | none => (.err, s, 1)

/-- `get_token` (bot.py):
`if not force_refresh and auth_token and time.time() < token_expiry:
return auth_token`, else the login exchange. -/
def get_token (force_refresh : Bool) (now : Int) (login : Option String)
    (s : TokState) : TokResult × TokState × Nat :=
  match force_refresh, truthyStr s.auth_token with
  | false, some t =>
    if now < s.token_expiry then (.ok t, s, 0)
    else attemptLogin now login s
  | _, _ => attemptLogin now login s

/-! ### Request wrapper (`shiprocket_request`, bot.py) -/

/-- The outcome the environment gives one `session.request` dispatch: a
response with a status code, or a raised `requests` exception. -/
inductive HttpOutcome
  | resp (status : Nat)
  | exc
deriving DecidableEq, Repr

/-- Environment of one `shiprocket_request` call: the outcome of the first
dispatch, whether the forced `get_token(force_refresh=True)` succeeds, and
the outcome of the retried dispatch (consulted only if reached). -/
structure ReqEnv where
  first : HttpOutcome
  refreshOk : Bool
  second : HttpOutcome
deriving DecidableEq, Repr

/-- Observable events of `shiprocket_request`, in order: an HTTP dispatch
of the request, and a forced token refresh. (`ensure_valid_token()` at
entry precedes the first dispatch and is not a 401-triggered retry; it is
outside this trace.) -/
inductive SREvent
  | dispatch
  | forceRefresh
deriving DecidableEq, Repr

/-- Result of `shiprocket_request`: the response handed back to the caller,
or one of the raised exceptions. -/
inductive SRResult
  | resp (status : Nat)
  | transportErr
  | refreshErr
  | authErr
deriving DecidableEq, Repr

/-- `shiprocket_request` (bot.py): dispatch; on a 401 with `retry=True`,
force-refresh the token and dispatch the same request once more; a second
401 raises; any further status is returned as-is. -/
def shiprocket_request (retry : Bool) (env : ReqEnv) :
    SRResult × List SREvent :=
  match env.first with
  | .exc => (.transportErr, [.dispatch])
  | .resp s1 =>
    if s1 = 401 ∧ retry then
      if env.refreshOk then
        match env.second with
        | .exc => (.transportErr, [.dispatch, .forceRefresh, .dispatch])
        | .resp s2 =>
          if s2 = 401 then (.authErr, [.dispatch, .forceRefresh, .dispatch])
          else (.resp s2, [.dispatch, .forceRefresh, .dispatch])
      else (.refreshErr, [.dispatch, .forceRefresh])
    else (.resp s1, [.dispatch])

/-! ### Create-shipment flow (`handle_message` shipment branch and
`handle_callback` `dup_yes_` branch, bot.py) -/

/-- One order of the duplicate-check `GET /orders` response.
`created_at_parsed` is the `datetime.strptime` result as epoch seconds,
`none` when parsing raises (the source then skips the order). -/
structure RecentOrder where
  billing_phone : Option String := none
  created_at_parsed : Option Int := none
deriving DecidableEq, Repr

/-- Outcome of the duplicate-check fetch: a raised request exception, or a
response with a status and (for status 200) the parsed `data` list. -/
inductive FetchOutcome
  | exc
  | resp (status : Nat) (orders : List RecentOrder)
deriving DecidableEq, Repr

/-- The `recent_orders` value after the duplicate-check block: the fetched
list only on a 200 response; `[]` when the request raised (the exception is
logged and swallowed) or the status was not 200. -/
def recentOrdersOf : FetchOutcome → List RecentOrder
  | .exc => []
  | .resp s os => if s = 200 then os else []

/-- The per-order duplicate test of the source loop: the creation date must
parse (else the order is skipped), the order's `billing_phone` must equal
`data.get("phone")`, and `(datetime.now() - order_date).days < 7`
(`timedelta.days` floors toward minus infinity). -/
def dupMatch (phone : Option String) (now : Int) (o : RecentOrder) : Bool :=
  match o.created_at_parsed with
  | none => false
  | some d => (o.billing_phone == phone) && decide ((now - d).fdiv 86400 < 7)

/-- Result of `create_order`: `(None, err)` or a response dict whose
`shipment_id` the caller reads (possibly absent). -/
inductive CreateRes
  | failed (err : String)
  | ok (shipment_id : Option Nat)
deriving DecidableEq, Repr

/-- Environment of one run of the create-shipment flow: the duplicate-check
fetch outcome, the `create_order` outcome per payload, courier candidates
and per-courier AWB outcomes for `create_shipment_with_fallback`, the
optional priority table, and the `generate_label` outcome. The payload type
`P` is opaque: the flow only carries the composed payload around. -/
structure FlowEnv (P : Type) where
  fetch : FetchOutcome
  createOrder : P → CreateRes
  pj : Option PTable
  couriers : List Courier
  assign : Nat → Option String
  label : Option String

/-- External calls of the flow that the claims constrain. -/
inductive Effect (P : Type)
  | createOrderCall (p : P)
  | labelCall (shipment_id : Option Nat)
deriving DecidableEq

/-- Terminal outcome of one run of the flow. -/
inductive FlowResult (P : Type)
  | duplicatePending (payload : P)
  | createFailed (err : String)
  | noCouriers
  | success (c : Courier) (awb : String) (rate : Option ℚ)
      (label : Option String)
deriving DecidableEq

/-- The shipment branch of `handle_message` from the duplicate-order check
onward (the payload is already composed; `data_phone` is `data.get("phone")`).
Returns the terminal outcome plus the trace of `create_order` /
`generate_label` calls. Mirrors the source: a matching recent order replies
with the Yes/No confirmation (whose `Yes` button carries the JSON payload)
and returns; otherwise `create_order`, then the courier fallback with an
early return on `(None, None, None)`, then `generate_label`. -/
def handle_message_shipment {P : Type} (env : FlowEnv P)
    (data_phone : Option String) (payload : P) (now : Int) :
    FlowResult P × List (Effect P) :=
  if (recentOrdersOf env.fetch).any (dupMatch data_phone now) then
    (.duplicatePending payload, [])
  else
    match env.createOrder payload with
    | .failed err => (.createFailed err, [.createOrderCall payload])
    | .ok sid =>
      match (create_shipment_with_fallback env.pj env.assign env.couriers).1 with
      | none => (.noCouriers, [.createOrderCall payload])
      | some (c, awb, rate) =>
        (.success c awb rate env.label,
          [.createOrderCall payload, .labelCall sid])

/-- The `dup_yes_` branch of `handle_callback`: the payload round-trips
through the button's JSON (modelled as identity), `create_order` runs on
it, then the courier fallback; this path never calls `generate_label`. -/
def handle_callback_dup_yes {P : Type} (env : FlowEnv P) (payload : P) :
    FlowResult P × List (Effect P) :=
  match env.createOrder payload with
  | .failed err => (.createFailed err, [.createOrderCall payload])
  | .ok _ =>
    match (create_shipment_with_fallback env.pj env.assign env.couriers).1 with
    | none => (.noCouriers, [.createOrderCall payload])
    | some (c, awb, rate) =>
      (.success c awb rate none, [.createOrderCall payload])

/-! ### Theorems -/

theorem fallbackLoop_attempts_prefix (assign : Nat → Option String) :
    ∀ l : List Courier, (fallbackLoop assign l).2 <+: l.filterMap usableId := by
  intro l
  induction l with
  | nil => simp [fallbackLoop]
  | cons c rest ih =>
    rw [fallbackLoop, List.filterMap_cons]
    cases hu : usableId c with
    | none => simpa using ih
    | some cid =>
      cases ht : truthyStr (assign cid) with
      | some awb => exact ⟨rest.filterMap usableId, by simp [ht]⟩
      | none =>
        obtain ⟨t, htl⟩ := ih
        exact ⟨t, by simp [ht, htl]⟩

/-- C1: for every candidate list, `create_shipment_with_fallback` attempts
candidates in nondecreasing order of the sort key: the iteration list
`couriers_sorted` is a permutation of the candidates sorted nondecreasingly
by `priority_key` (tier from the truthy override table when it maps the
candidate's `overrideKey` to an integer, else 1/2/3/99 by courier-name
substring; then `mode_pref` 0/1/2 for surface/air/other; then the quoted
rate ascending), and the attempted assignments are a prefix of the sorted
candidates' usable identifiers. -/
theorem C1_attempts_in_sorted_order (pj : Option PTable) (cs : List Courier)
    (assign : Nat → Option String) :
    (couriers_sorted pj cs).Sorted
      (fun a b => keyLEp (priority_key pj a) (priority_key pj b)) ∧
    (couriers_sorted pj cs).Perm cs ∧
    (create_shipment_with_fallback pj assign cs).2 <+:
      (couriers_sorted pj cs).filterMap usableId := by
  refine ⟨List.sorted_insertionSort (keyRel pj) cs,
    List.perm_insertionSort (keyRel pj) cs, ?_⟩
  unfold create_shipment_with_fallback
  by_cases h : cs.isEmpty
  · simp [h]
  · simp only [h, if_false]
    exact fallbackLoop_attempts_prefix assign (couriers_sorted pj cs)

/-- A candidate the fallback loop passes over: either the identifier chain
resolves to nothing usable, or the `assign_awb` call returns no truthy AWB. -/
def failCand (assign : Nat → Option String) (d : Courier) : Prop :=
  usableId d = none ∨ ∃ i, usableId d = some i ∧ truthyStr (assign i) = none

theorem fallbackLoop_spec (assign : Nat → Option String) :
    ∀ (l : List Courier) (c : Courier) (awb : String) (r : Option ℚ),
    (fallbackLoop assign l).1 = some (c, awb, r) →
    r = c.rate ∧
    ∃ cid, usableId c = some cid ∧ truthyStr (assign cid) = some awb ∧
    ∃ l1 l2, l = l1 ++ c :: l2 ∧ (∀ d ∈ l1, failCand assign d) ∧
      (fallbackLoop assign l).2 = l1.filterMap usableId ++ [cid] := by
  intro l
  induction l with
  | nil => intro c awb r h; simp [fallbackLoop] at h
  | cons c0 rest ih =>
    intro c awb r h
    rw [fallbackLoop] at h ⊢
    cases hu : usableId c0 with
    | none =>
      simp only [hu] at h ⊢
      obtain ⟨hr, cid, hcid, hawb, l1, l2, hl, hfail, htr⟩ := ih c awb r h
      refine ⟨hr, cid, hcid, hawb, c0 :: l1, l2, by simp [hl],
        fun d hd => ?_, by simp [List.filterMap_cons, hu, htr]⟩
      rcases List.mem_cons.mp hd with hd | hd
      · exact hd ▸ Or.inl hu
      · exact hfail d hd
    | some cid0 =>
      simp only [hu] at h ⊢
      cases ht : truthyStr (assign cid0) with
      | some awb0 =>
        simp only [ht] at h ⊢
        obtain ⟨hc, hawb, hr⟩ : c0 = c ∧ awb0 = awb ∧ c0.rate = r := by
          simpa using h
        subst hc; subst hawb; subst hr
        exact ⟨rfl, cid0, hu, ht, [], rest, rfl, by simp, by simp⟩
      | none =>
        simp only [ht] at h ⊢
        obtain ⟨hr, cid, hcid, hawb, l1, l2, hl, hfail, htr⟩ := ih c awb r h
        refine ⟨hr, cid, hcid, hawb, c0 :: l1, l2, by simp [hl],
          fun d hd => ?_, by simp [List.filterMap_cons, hu, htr]⟩
        rcases List.mem_cons.mp hd with hd | hd
        · exact hd ▸ Or.inr ⟨cid0, hu, ht⟩
        · exact hfail d hd

/-- C2: when `create_shipment_with_fallback` returns `(c, awb, rate)`, the
rate is that candidate's quoted rate, `assign_awb` yielded the truthy AWB
for `c`'s resolved identifier, `c` is the first candidate of the sorted
order whose assignment succeeds — every earlier candidate either had no
resolvable identifier (skipped) or failed assignment — and the attempted
assignments stop exactly at `c`. -/
theorem C2_first_success (pj : Option PTable) (assign : Nat → Option String)
    (cs : List Courier) (c : Courier) (awb : String) (r : Option ℚ)
    (h : (create_shipment_with_fallback pj assign cs).1 = some (c, awb, r)) :
    r = c.rate ∧
    ∃ cid, usableId c = some cid ∧ truthyStr (assign cid) = some awb ∧
    ∃ l1 l2, couriers_sorted pj cs = l1 ++ c :: l2 ∧
      (∀ d ∈ l1, failCand assign d) ∧
      (create_shipment_with_fallback pj assign cs).2
        = l1.filterMap usableId ++ [cid] := by
  unfold create_shipment_with_fallback at h ⊢
  by_cases he : cs.isEmpty
  · simp [he] at h
  · simp only [he, if_false] at h ⊢
    exact fallbackLoop_spec assign (couriers_sorted pj cs) c awb r h

/-- The spec's example candidates: XYZ Express (air, rate 120) and
Delhivery Surface (surface, rate 150). -/
def exXyz : Courier :=
  { courier_name := some "XYZ Express", mode := some "air",
    rate := some 120, courier_company_id := some 7 }

def exDlv : Courier :=
  { courier_name := some "Delhivery Surface", mode := some "surface",
    rate := some 150, courier_company_id := some 5 }

/-- AWB outcomes of the spec's example: Delhivery's assignment fails, XYZ
Express's succeeds. -/
def exAssign : Nat → Option String :=
  fun i => if i = 7 then some "AWB777" else none

/-- Witness for C2 at the spec's example: Delhivery ranks first but fails,
so the result is XYZ Express with its tracking number and rate. -/
theorem C2_first_success_witness :
    (create_shipment_with_fallback none exAssign [exXyz, exDlv]).1
        = some (exXyz, "AWB777", some 120) ∧
    ((some 120 : Option ℚ) = exXyz.rate ∧
     ∃ cid, usableId exXyz = some cid ∧
       truthyStr (exAssign cid) = some "AWB777" ∧
     ∃ l1 l2, couriers_sorted none [exXyz, exDlv] = l1 ++ exXyz :: l2 ∧
       (∀ d ∈ l1, failCand exAssign d) ∧
       (create_shipment_with_fallback none exAssign [exXyz, exDlv]).2
         = l1.filterMap usableId ++ [cid]) :=
  ⟨by decide, C2_first_success none exAssign [exXyz, exDlv] exXyz "AWB777"
    (some 120) (by decide)⟩

/-- Two sorted permutations of each other whose elements have pairwise
distinct sort keys are equal. -/
theorem sorted_perm_eq (pj : Option PTable) :
    ∀ (l1 l2 : List Courier), l1.Perm l2 →
    l1.Sorted (keyRel pj) → l2.Sorted (keyRel pj) →
    l1.Pairwise (fun a b => priority_key pj a ≠ priority_key pj b) →
    l1 = l2 := by
  intro l1
  induction l1 with
  | nil => intro l2 hp _ _ _; exact (List.Perm.nil_eq hp).symm ▸ rfl
  | cons a t1 ih =>
    intro l2 hp hs1 hs2 hpw
    cases l2 with
    | nil => exact absurd hp.symm (by simp)
    | cons b t2 =>
      have hab : a = b := by
        by_contra hne
        have hbmem : b ∈ a :: t1 := hp.mem_iff.mpr (List.mem_cons_self b t2)
        have hamem : a ∈ b :: t2 := hp.mem_iff.mp (List.mem_cons_self a t1)
        have hb1 : b ∈ t1 := by
          rcases List.mem_cons.mp hbmem with h | h
          · exact absurd h.symm hne
          · exact h
        have ha2 : a ∈ t2 := by
          rcases List.mem_cons.mp hamem with h | h
          · exact absurd h hne
          · exact h
        have h1 : keyRel pj a b := List.rel_of_sorted_cons hs1 b hb1
        have h2 : keyRel pj b a := List.rel_of_sorted_cons hs2 a ha2
        exact (List.pairwise_cons.mp hpw).1 b hb1 (keyLEp_antisymm h1 h2)
      subst hab
      have ht : t1 = t2 :=
        ih t2 hp.cons_inv hs1.of_cons hs2.of_cons
          (List.pairwise_cons.mp hpw).2
      rw [ht]

/-- C8 counterexample: two distinct candidates sharing the same sort key
(same name, mode and rate, different identifiers), each with a successful
but different AWB assignment. Presenting the same multiset in the two
orders yields different sorted iteration orders (the sort is stable) and
different selected couriers, so the claim fails as stated. -/
def cexA : Courier :=
  { courier_name := some "bluedart", mode := some "surface",
    rate := some 10, courier_company_id := some 1 }

def cexB : Courier :=
  { courier_name := some "bluedart", mode := some "surface",
    rate := some 10, courier_company_id := some 2 }

def cexAssign : Nat → Option String :=
  fun i => if i = 1 then some "AWB-A" else if i = 2 then some "AWB-B" else none

/-- C8 is false as stated: `[cexA, cexB]` and `[cexB, cexA]` are the same
multiset of candidates with the same priority configuration and fixed
per-candidate assignment outcomes, yet the sorted iteration orders differ
and different final couriers are selected. -/
theorem C8_counterexample :
    ([cexA, cexB] : List Courier).Perm [cexB, cexA] ∧
    priority_key none cexA = priority_key none cexB ∧
    cexA ≠ cexB ∧
    couriers_sorted none [cexA, cexB] ≠ couriers_sorted none [cexB, cexA] ∧
    (create_shipment_with_fallback none cexAssign [cexA, cexB]).1
      ≠ (create_shipment_with_fallback none cexAssign [cexB, cexA]).1 := by
  refine ⟨List.Perm.swap cexB cexA [], by decide, by decide, by decide, by decide⟩

/-- C8 amended: given the same multiset of candidates, the same priority
configuration and fixed per-candidate assignment outcomes, and provided no
two distinct candidates share the same sort key, `create_shipment_with_fallback`
produces the same sorted iteration order and the same result regardless of
the order in which the candidate list is presented. -/
theorem C8_perm_invariant (pj : Option PTable) (assign : Nat → Option String)
    (cs1 cs2 : List Courier) (hperm : cs1.Perm cs2)
    (hdist : cs1.Pairwise (fun a b => priority_key pj a ≠ priority_key pj b)) :
    couriers_sorted pj cs1 = couriers_sorted pj cs2 ∧
    create_shipment_with_fallback pj assign cs1
      = create_shipment_with_fallback pj assign cs2 := by
  have hdist1 : (couriers_sorted pj cs1).Pairwise
      (fun a b => priority_key pj a ≠ priority_key pj b) :=
    (List.Perm.pairwise_iff (fun h e => h e.symm)
      (List.perm_insertionSort (keyRel pj) cs1)).mpr hdist
  have hps : (couriers_sorted pj cs1).Perm (couriers_sorted pj cs2) :=
    ((List.perm_insertionSort (keyRel pj) cs1).trans hperm).trans
      (List.perm_insertionSort (keyRel pj) cs2).symm
  have heq : couriers_sorted pj cs1 = couriers_sorted pj cs2 :=
    sorted_perm_eq pj _ _ hps
      (List.sorted_insertionSort (keyRel pj) cs1)
      (List.sorted_insertionSort (keyRel pj) cs2) hdist1
  refine ⟨heq, ?_⟩
  unfold create_shipment_with_fallback
  have hemp : cs1.isEmpty = cs2.isEmpty := by
    cases cs1 with
    | nil => rw [(List.Perm.nil_eq hperm)]
    | cons a t =>
      cases cs2 with
      | nil => exact absurd hperm.symm (by simp)
      | cons b u => rfl
  rw [hemp, heq]

/-- Witness for the amended C8: the spec-example candidates have distinct
sort keys, so the two presentation orders sort identically and select the
same courier. -/
theorem C8_perm_invariant_witness :
    couriers_sorted none [exXyz, exDlv] = couriers_sorted none [exDlv, exXyz] ∧
    create_shipment_with_fallback none exAssign [exXyz, exDlv]
      = create_shipment_with_fallback none exAssign [exDlv, exXyz] :=
  C8_perm_invariant none exAssign [exXyz, exDlv] [exDlv, exXyz]
    (List.Perm.swap exDlv exXyz []) (by decide)

/-- C6 counterexample: with pickup map entries `"ware house" ↦ 0` (first)
and `"ware" ↦ 1` (second) and user label `"ware"`, the second entry's
normalized key equals the normalized label exactly, yet the resolver
returns the first entry, which matches only by the substring rule
(its normalized key `"warehouse"` is not equal to `"ware"`). The three
rules are checked per key in insertion order, not globally in rule order. -/
theorem C6_counterexample :
    normalize_pickup_obj (some "ware") [("ware house", 0), ("ware", 1)]
      = some 0 ∧
    normalize_pickup_obj (some "ware") [("ware house", 0), ("ware", 1)]
      ≠ some 1 ∧
    normWord "ware" = normWord "ware" ∧
    normWord "ware house" ≠ normWord "ware" := by
  refine ⟨by decide, by decide, rfl, by decide⟩

/-- C6 amended: the resolver normalizes the label (lowercase, strip
non-word characters) and walks the pickup map in insertion order, checking
for each key the disjunction exact-equality / label-in-key / key-in-label;
the first key satisfying any rule wins. Consequently an exact match is
returned in preference to substring matches only when no earlier key
matches any rule: if entry `i`'s normalized key equals the normalized
label and no entry before `i` matches any of the three rules, entry `i`'s
location is returned. -/
theorem C6_exact_match_after_unmatched {α : Type} (p : String)
    (pm : List (String × α)) (i : Nat) (hi : i < pm.length) (hp : p ≠ "")
    (hexact : normWord (pm.get ⟨i, hi⟩).1 = normWord p)
    (hbefore : ∀ j : Fin i,
      anyRule (normWord p) (normWord (pm.get ⟨j.1, Nat.lt_trans j.2 hi⟩).1)
        = false) :
    normalize_pickup_obj (some p) pm = some (pm.get ⟨i, hi⟩).2 := by
  have htp : truthyStr (some p) = some p := by simp [truthyStr, hp]
  have hloop : ∀ (l : List (String × α)) (k : Nat) (hk : k < l.length),
      normWord (l.get ⟨k, hk⟩).1 = normWord p →
      (∀ j : Fin k,
        anyRule (normWord p) (normWord (l.get ⟨j.1, Nat.lt_trans j.2 hk⟩).1)
          = false) →
      pickupLoop (normWord p) l = some (l.get ⟨k, hk⟩).2 := by
    intro l
    induction l with
    | nil => intro k hk; exact absurd hk (by simp)
    | cons e rest ih =>
      intro k hk hex hbef
      cases k with
      | zero =>
        have : anyRule (normWord p) (normWord e.1) = true := by
          simp only [anyRule]
          have : normWord p = normWord e.1 := hex.symm
          simp [this]
        simp [pickupLoop, this]
      | succ k0 =>
        have hhead : anyRule (normWord p) (normWord e.1) = false :=
          hbef ⟨0, Nat.succ_pos k0⟩
        have hk0 : k0 < rest.length := Nat.lt_of_succ_lt_succ hk
        rw [pickupLoop, hhead]
        simp only [Bool.false_eq_true, if_false]
        exact ih k0 hk0 hex
          (fun j => hbef ⟨j.1 + 1, Nat.succ_lt_succ j.2⟩)
  simp only [normalize_pickup_obj, htp, hloop pm i hi hexact hbefore]

/-- Witness for the amended C6: label `"ware"`, first entry unmatched by
any rule, second entry an exact match — the second entry is returned. -/
theorem C6_exact_match_after_unmatched_witness :
    normalize_pickup_obj (some "ware") [("xx", 0), ("ware", 1)] = some 1 := by
  have h := C6_exact_match_after_unmatched "ware" [("xx", 0), ("ware", 1)] 1
    (by decide) (by decide) (by decide) (by decide)
  simpa using h

theorem pickupLoop_eq_none {α : Type} (k : String) :
    ∀ pm : List (String × α),
    (∀ e ∈ pm, anyRule k (normWord e.1) = false) →
    pickupLoop k pm = none := by
  intro pm
  induction pm with
  | nil => intro _; rfl
  | cons e rest ih =>
    intro h
    rw [pickupLoop, h e (List.mem_cons_self e rest)]
    simp only [Bool.false_eq_true, if_false]
    exact ih (fun d hd => h d (List.mem_cons_of_mem e hd))

theorem pickupLoop_mem {α : Type} (k : String) :
    ∀ (pm : List (String × α)) (obj : α),
    pickupLoop k pm = some obj → obj ∈ pm.map (fun e => e.2) := by
  intro pm
  induction pm with
  | nil => intro obj h; simp [pickupLoop] at h
  | cons e rest ih =>
    intro obj h
    rw [pickupLoop] at h
    by_cases ha : anyRule k (normWord e.1) = true
    · rw [if_pos ha] at h
      simp [Option.some_inj.mp h]
    · rw [if_neg ha] at h
      exact List.mem_cons_of_mem e.2 (ih obj h)

/-- C7: for every user label — including an empty or absent one — the
resolver returns a location from the pickup map whenever the map is
non-empty, returns the first location when the label is falsy or no entry
matches any rule, and returns `none` exactly when the map is empty. -/
theorem C7_resolver_fallback {α : Type} (pickup : Option String)
    (pm : List (String × α)) :
    (normalize_pickup_obj pickup pm = none ↔ pm = []) ∧
    (∀ obj, normalize_pickup_obj pickup pm = some obj →
      obj ∈ pm.map (fun e => e.2)) ∧
    (truthyStr pickup = none →
      normalize_pickup_obj pickup pm = pm.head?.map (fun e => e.2)) ∧
    (∀ p, truthyStr pickup = some p →
      (∀ e ∈ pm, anyRule (normWord p) (normWord e.1) = false) →
      normalize_pickup_obj pickup pm = pm.head?.map (fun e => e.2)) := by
  refine ⟨?_, ?_, ?_, ?_⟩
  · constructor
    · intro h
      by_contra hne
      obtain ⟨e, rest, rfl⟩ : ∃ e rest, pm = e :: rest := by
        cases pm with
        | nil => exact absurd rfl hne
        | cons e rest => exact ⟨e, rest, rfl⟩
      rw [normalize_pickup_obj] at h
      cases htp : truthyStr pickup with
      | none => simp only [htp] at h; simp at h
      | some p =>
        simp only [htp] at h
        cases hl : pickupLoop (normWord p) (e :: rest) with
        | none => simp only [hl] at h; simp at h
        | some obj => simp only [hl] at h; simp at h
    · intro h
      subst h
      rw [normalize_pickup_obj]
      cases htp : truthyStr pickup with
      | none => simp [htp]
      | some p => simp [htp, pickupLoop]
  · intro obj h
    rw [normalize_pickup_obj] at h
    cases htp : truthyStr pickup with
    | none =>
      simp only [htp] at h
      cases pm with
      | nil => simp at h
      | cons e rest =>
        simp only [List.head?_cons, Option.map_some] at h
        simp [Option.some_inj.mp h]
    | some p =>
      simp only [htp] at h
      cases hl : pickupLoop (normWord p) pm with
      | some o =>
        simp only [hl] at h
        exact Option.some_inj.mp h ▸ pickupLoop_mem (normWord p) pm o hl
      | none =>
        simp only [hl] at h
        cases pm with
        | nil => simp at h
        | cons e rest =>
          simp only [List.head?_cons, Option.map_some] at h
          simp [Option.some_inj.mp h]
  · intro htp
    simp only [normalize_pickup_obj, htp]
  · intro p htp hnone
    simp only [normalize_pickup_obj, htp,
      pickupLoop_eq_none (normWord p) pm hnone]

/-- Witness for C7: an unmatched non-empty label over a one-entry map
resolves to that entry, and over the empty map to `none`. -/
theorem C7_resolver_fallback_witness :
    normalize_pickup_obj (some "zzz") [("Mumbai WH", 5)] = some 5 ∧
    normalize_pickup_obj (some "zzz") ([] : List (String × Nat)) = none := by
  constructor
  · have h := (C7_resolver_fallback (some "zzz") [("Mumbai WH", 5)]).2.2.2
      "zzz" (by decide) (by decide)
    simpa using h
  · exact (C7_resolver_fallback (some "zzz")
      ([] : List (String × Nat))).1.mpr rfl

/-- C5: with `force_refresh` false, `get_token` returns the cached token
and makes no login call whenever a cached (truthy) token exists and the
current time is before the stored expiry; otherwise — or whenever
`force_refresh` is true — it makes exactly one login call, and when the
login returns a token it stores it and sets the expiry to the current time
plus 23 hours. -/
theorem C5_token_cache (force_refresh : Bool) (now : Int)
    (login : Option String) (s : TokState) :
    (∀ t, force_refresh = false → truthyStr s.auth_token = some t →
      now < s.token_expiry →
      get_token force_refresh now login s = (.ok t, s, 0)) ∧
    ((force_refresh = true ∨ truthyStr s.auth_token = none ∨
        s.token_expiry ≤ now) →
      (get_token force_refresh now login s).2.2 = 1 ∧
      ∀ tok, login = some tok →
        get_token force_refresh now login s
          = (.ok tok, ⟨some tok, now + 23 * 3600⟩, 1)) := by
  constructor
  · intro t hf ht hlt
    subst hf
    simp only [get_token, ht, if_pos hlt]
  · intro h
    have hbranch : get_token force_refresh now login s
        = attemptLogin now login s := by
      cases hforce : force_refresh with
      | true => simp only [get_token]
      | false =>
        cases htt : truthyStr s.auth_token with
        | none => simp only [get_token, htt]
        | some t =>
          rcases h with hf | ht2 | hexp
          · rw [hforce] at hf; exact absurd hf (by simp)
          · rw [htt] at ht2; exact absurd ht2 (by simp)
          · simp only [get_token, htt, if_neg (not_lt.mpr hexp)]
    rw [hbranch]
    refine ⟨?_, ?_⟩
    · cases login <;> rfl
    · intro tok hl
      subst hl
      rfl

/-- Witness for C5: a cached valid token is returned with zero login
calls, and a forced refresh makes exactly one login call, stores the new
token, and sets the expiry 23 hours past `now`. -/
theorem C5_token_cache_witness :
    get_token false 50 (some "NEW") ⟨some "TOK", 100⟩
      = (.ok "TOK", ⟨some "TOK", 100⟩, 0) ∧
    get_token true 50 (some "NEW") ⟨some "TOK", 100⟩
      = (.ok "NEW", ⟨some "NEW", 50 + 23 * 3600⟩, 1) :=
  ⟨(C5_token_cache false 50 (some "NEW") ⟨some "TOK", 100⟩).1 "TOK" rfl
      (by decide) (by decide),
   ((C5_token_cache true 50 (some "NEW") ⟨some "TOK", 100⟩).2
      (Or.inl rfl)).2 "NEW" rfl⟩

/-- C4: `shiprocket_request` never makes more than one forced token
refresh nor more than two dispatches of the request; upon a 401 first
response (with retry enabled, the default) and a successful forced
refresh, its event trace is exactly dispatch, forced refresh, dispatch —
one refresh, one retry — and when the retried request returns 401 again
the call raises the authentication error. -/
theorem C4_auth_retry_once (retry : Bool) (env : ReqEnv) :
    (shiprocket_request retry env).2.count SREvent.forceRefresh ≤ 1 ∧
    (shiprocket_request retry env).2.count SREvent.dispatch ≤ 2 ∧
    (env.first = .resp 401 → retry = true → env.refreshOk = true →
      (shiprocket_request retry env).2
        = [.dispatch, .forceRefresh, .dispatch] ∧
      (env.second = .resp 401 →
        (shiprocket_request retry env).1 = .authErr)) := by
  rcases env with ⟨first, refreshOk, second⟩
  cases first with
  | exc =>
    have he : shiprocket_request retry ⟨.exc, refreshOk, second⟩
        = (.transportErr, [.dispatch]) := rfl
    rw [he]
    exact ⟨by decide, by decide, fun h => by simp at h⟩
  | resp s1 =>
    by_cases hc : s1 = 401 ∧ retry = true
    · obtain ⟨hs1, hr⟩ := hc
      subst hs1; subst hr
      cases refreshOk with
      | false =>
        have he : shiprocket_request true ⟨.resp 401, false, second⟩
            = (.refreshErr, [.dispatch, .forceRefresh]) := rfl
        rw [he]
        exact ⟨by decide, by decide, fun _ _ h => by simp at h⟩
      | true =>
        cases second with
        | exc =>
          have he : shiprocket_request true ⟨.resp 401, true, .exc⟩
              = (.transportErr, [.dispatch, .forceRefresh, .dispatch]) := rfl
          rw [he]
          exact ⟨by decide, by decide,
            fun _ _ _ => ⟨rfl, fun h => by simp at h⟩⟩
        | resp s2 =>
          by_cases h2 : s2 = 401
          · subst h2
            have he : shiprocket_request true ⟨.resp 401, true, .resp 401⟩
                = (.authErr, [.dispatch, .forceRefresh, .dispatch]) := rfl
            rw [he]
            exact ⟨by decide, by decide, fun _ _ _ => ⟨rfl, fun _ => rfl⟩⟩
          · have he : shiprocket_request true ⟨.resp 401, true, .resp s2⟩
                = (.resp s2, [.dispatch, .forceRefresh, .dispatch]) := by
              rw [shiprocket_request]
              simp only [if_neg h2, and_true, eq_self_iff_true, if_true]
            rw [he]
            refine ⟨by simp [List.count_cons], by simp [List.count_cons],
              fun _ _ _ => ⟨rfl, fun hh => ?_⟩⟩
            exact absurd (by injection hh) h2
    · have he : shiprocket_request retry ⟨.resp s1, refreshOk, second⟩
          = (.resp s1, [.dispatch]) := by
        rw [shiprocket_request]
        simp only [if_neg hc]
      rw [he]
      refine ⟨by simp [List.count_cons], by simp [List.count_cons],
        fun hs1 hr _ => ?_⟩
      exact absurd ⟨by injection hs1, hr⟩ hc

/-- Witness for C4: a 401 followed by a refresh and a second 401 produces
the dispatch-refresh-dispatch trace and the authentication error. -/
theorem C4_auth_retry_once_witness :
    (shiprocket_request true ⟨.resp 401, true, .resp 401⟩).2
      = [.dispatch, .forceRefresh, .dispatch] ∧
    (shiprocket_request true ⟨.resp 401, true, .resp 401⟩).1 = .authErr := by
  have h := (C4_auth_retry_once true ⟨.resp 401, true, .resp 401⟩).2.2
    rfl rfl rfl
  exact ⟨h.1, h.2 rfl⟩

/-- C3: if the recent-orders query succeeds (status 200) and some returned
order has a parseable creation date within the last 7 days and a billing
phone equal to the new order's phone, the handler halts at the
duplicate-order confirmation carrying the composed payload, without
invoking `create_order`; the confirmation path (`dup_yes_`) then invokes
`create_order` with that same payload as its first external call. -/
theorem C3_duplicate_gate {P : Type} (env : FlowEnv P) (phone : Option String)
    (payload : P) (now : Int) (os : List RecentOrder) (o : RecentOrder)
    (d : Int) (hf : env.fetch = .resp 200 os) (ho : o ∈ os)
    (hph : o.billing_phone = phone) (hd : o.created_at_parsed = some d)
    (h0 : 0 ≤ now - d) (h7 : now - d < 7 * 86400) :
    handle_message_shipment env phone payload now
      = (.duplicatePending payload, []) ∧
    (∀ q, Effect.createOrderCall q
      ∉ (handle_message_shipment env phone payload now).2) ∧
    (handle_callback_dup_yes env payload).2.head?
      = some (.createOrderCall payload) := by
  have hmatch : dupMatch phone now o = true := by
    rw [dupMatch, hd]
    simp only [Bool.and_eq_true, beq_iff_eq, decide_eq_true_eq]
    refine ⟨hph, ?_⟩
    rw [Int.fdiv_eq_ediv _ (by norm_num : (0:Int) ≤ 86400)]
    omega
  have hany : (recentOrdersOf env.fetch).any (dupMatch phone now) = true := by
    rw [hf]
    exact List.any_eq_true.mpr ⟨o, by simpa [recentOrdersOf] using ho, hmatch⟩
  have hmsg : handle_message_shipment env phone payload now
      = (.duplicatePending payload, []) := by
    rw [handle_message_shipment, if_pos hany]
  refine ⟨hmsg, ?_, ?_⟩
  · intro q
    rw [hmsg]
    simp
  · rw [handle_callback_dup_yes]
    cases env.createOrder payload with
    | failed err => rfl
    | ok sid =>
      cases hfb : (create_shipment_with_fallback env.pj env.assign
          env.couriers).1 with
      | none => simp only [hfb]; rfl
      | some t => rcases t with ⟨c, awb, rate⟩; simp only [hfb]; rfl

/-- The recent order used by the C3 witness: same phone, created at epoch
second 0. -/
def exDupOrder : RecentOrder :=
  { billing_phone := some "9876543210", created_at_parsed := some 0 }

/-- The flow environment used by the C3 witness. -/
def exDupEnv : FlowEnv String :=
  { fetch := .resp 200 [exDupOrder]
    createOrder := fun _ => .failed "err"
    pj := none
    couriers := []
    assign := fun _ => none
    label := none }

/-- Witness for C3: one day after a matching-phone order, the flow halts at
the duplicate confirmation with no `create_order` call, and the
confirmation path starts with the `create_order` call on the same payload. -/
theorem C3_duplicate_gate_witness :
    handle_message_shipment exDupEnv (some "9876543210") "PAYLOAD" 86400
      = (.duplicatePending "PAYLOAD", []) ∧
    (∀ q, Effect.createOrderCall q
      ∉ (handle_message_shipment exDupEnv (some "9876543210")
          "PAYLOAD" 86400).2) ∧
    (handle_callback_dup_yes exDupEnv "PAYLOAD").2.head?
      = some (.createOrderCall "PAYLOAD") :=
  C3_duplicate_gate exDupEnv (some "9876543210") "PAYLOAD" 86400
    [exDupOrder] exDupOrder 0 rfl (List.mem_cons_self _ _) rfl rfl
    (by norm_num) (by norm_num)

/-- C9: the create-shipment flow calls `generate_label` only when
`create_shipment_with_fallback` has returned a courier with a (truthy) AWB
for the shipment: a label call in the trace implies the fallback succeeded
(so a null courier or AWB makes the flow return before label generation),
and the duplicate-confirmation path never calls `generate_label` at all. -/
theorem C9_label_needs_awb {P : Type} (env : FlowEnv P)
    (phone : Option String) (payload : P) (now : Int) (sid : Option Nat)
    (h : Effect.labelCall sid
      ∈ (handle_message_shipment env phone payload now).2) :
    (∃ c awb rate, (create_shipment_with_fallback env.pj env.assign
        env.couriers).1 = some (c, awb, rate)) ∧
    (∀ sid2 : Option Nat,
      Effect.labelCall sid2 ∉ (handle_callback_dup_yes env payload).2) := by
  constructor
  · rw [handle_message_shipment] at h
    by_cases hdup : (recentOrdersOf env.fetch).any (dupMatch phone now)
        = true
    · rw [if_pos hdup] at h
      simp at h
    · rw [if_neg (by simpa using hdup)] at h
      cases hco : env.createOrder payload with
      | failed err => rw [hco] at h; simp at h
      | ok sid0 =>
        rw [hco] at h
        cases hfb : (create_shipment_with_fallback env.pj env.assign
            env.couriers).1 with
        | none => rw [hfb] at h; simp at h
        | some t =>
          rcases t with ⟨c, awb, rate⟩
          exact ⟨c, awb, rate, rfl⟩
  · intro sid2
    rw [handle_callback_dup_yes]
    cases env.createOrder payload with
    | failed err => simp
    | ok sid0 =>
      cases hfb : (create_shipment_with_fallback env.pj env.assign
          env.couriers).1 with
      | none => simp only [hfb]; simp
      | some t => rcases t with ⟨c, awb, rate⟩; simp only [hfb]; simp

/-- The flow environment used by the C9 witness: no duplicate, a
successful order creation, and the spec-example couriers where XYZ
Express's assignment succeeds. -/
def exLabelEnv : FlowEnv String :=
  { fetch := .resp 200 []
    createOrder := fun _ => .ok (some 31)
    pj := none
    couriers := [exXyz, exDlv]
    assign := exAssign
    label := some "LBL" }

/-- Witness for C9: in a run whose trace contains the label call, the
fallback indeed returned a courier and AWB, and the confirmation path is
label-free. -/
theorem C9_label_needs_awb_witness :
    (∃ c awb rate, (create_shipment_with_fallback exLabelEnv.pj
        exLabelEnv.assign exLabelEnv.couriers).1 = some (c, awb, rate)) ∧
    (∀ sid2 : Option Nat, Effect.labelCall sid2
      ∉ (handle_callback_dup_yes exLabelEnv "PAYLOAD").2) :=
  C9_label_needs_awb exLabelEnv none "PAYLOAD" 0 (some 31) (by decide)

/-- C10: when the duplicate-check lookup fails (request exception or
non-200 status) or no returned order has a parseable creation date, the
failure is swallowed: the flow does not halt at the duplicate confirmation
and proceeds directly to the `create_order` call. -/
theorem C10_dup_check_soft_fail {P : Type} (env : FlowEnv P)
    (phone : Option String) (payload : P) (now : Int)
    (h : env.fetch = .exc ∨
      (∃ st os, env.fetch = .resp st os ∧ st ≠ 200) ∨
      (∀ o ∈ recentOrdersOf env.fetch, o.created_at_parsed = none)) :
    (handle_message_shipment env phone payload now).2.head?
      = some (.createOrderCall payload) ∧
    ∀ q, (handle_message_shipment env phone payload now).1
      ≠ FlowResult.duplicatePending q := by
  have hnone : ∀ o ∈ recentOrdersOf env.fetch,
      o.created_at_parsed = none := by
    rcases h with hf | ⟨st, os, hf, hst⟩ | hp
    · rw [hf]; intro o ho; simp [recentOrdersOf] at ho
    · rw [hf]; intro o ho
      simp only [recentOrdersOf, if_neg hst] at ho
      simp at ho
    · exact hp
  have hany : (recentOrdersOf env.fetch).any (dupMatch phone now) = false := by
    rw [List.any_eq_false]
    intro o ho
    rw [dupMatch, hnone o ho]
    simp
  have hbranch : handle_message_shipment env phone payload now
      = match env.createOrder payload with
        | .failed err => (.createFailed err, [.createOrderCall payload])
        | .ok sid =>
          match (create_shipment_with_fallback env.pj env.assign
              env.couriers).1 with
          | none => (.noCouriers, [.createOrderCall payload])
          | some (c, awb, rate) =>
            (.success c awb rate env.label,
              [.createOrderCall payload, .labelCall sid]) := by
    rw [handle_message_shipment, if_neg (by simp [hany])]
  rw [hbranch]
  cases env.createOrder payload with
  | failed err => exact ⟨rfl, fun q => by simp⟩
  | ok sid =>
    cases hfb : (create_shipment_with_fallback env.pj env.assign
        env.couriers).1 with
    | none => exact ⟨rfl, fun q => by simp⟩
    | some t =>
      rcases t with ⟨c, awb, rate⟩
      exact ⟨rfl, fun q => by simp⟩

/-- The flow environment used by the C10 witness: the duplicate-check
request raises. -/
def exExcEnv : FlowEnv String :=
  { fetch := .exc
    createOrder := fun _ => .failed "err"
    pj := none
    couriers := []
    assign := fun _ => none
    label := none }

/-- Witness for C10: with the duplicate-check request raising, the flow
proceeds straight to `create_order` and does not halt at the duplicate
confirmation. -/
theorem C10_dup_check_soft_fail_witness :
    (handle_message_shipment exExcEnv (some "9876543210")
        "PAYLOAD" 0).2.head? = some (.createOrderCall "PAYLOAD") ∧
    ∀ q, (handle_message_shipment exExcEnv (some "9876543210")
        "PAYLOAD" 0).1 ≠ FlowResult.duplicatePending q :=
  C10_dup_check_soft_fail exExcEnv (some "9876543210") "PAYLOAD" 0
    (Or.inl rfl)

end ShipBot
